import Mathlib

/-!
# captainhook: runbook model and execution engine (`runbook.go`)

A shallow embedding of `runbook.go`.  Go values are represented as follows.

* `error` values are represented by their message; a nil error is `none`.
* A returned pointer (`*runBook`, `*runBookResponse`) is an `Option`; nil is `none`.
* `net.IP` and `net.IPMask` are byte slices, represented as lists of naturals
  (each entry a byte).  A nil slice and an empty slice are both `[]`; the Go code
  under study only takes their length and indexes them.
* The calls into `os/exec`, `io/ioutil` and `encoding/json` are calls into the
  environment.  Their return values are explicit inputs of the embedded functions.
-/

set_option linter.dupNamespace false

namespace Captainhook

/-! ## Data model -/

/-- Go `error` values, represented by their message. -/
abbrev error := String

/-- Go `net.IP`: a byte slice of length 4 (IPv4) or 16 (IPv6) when well formed. -/
abbrev IP := List Nat

/-- Go `net.IPMask`. -/
abbrev IPMask := List Nat

/-- Go `net.IPNet`. -/
structure IPNet where
  IP : IP
  Mask : IPMask
deriving DecidableEq, Repr

/-- Source type `script`. -/
structure script where
  Command : String
  Args : List String
deriving DecidableEq, Repr

/-- Source type `result`. -/
structure result where
  Stdout : String
  Stderr : String
  StatusCode : Int
deriving DecidableEq, Repr

/-- Source type `runBookResponse`. -/
structure runBookResponse where
  Results : List result
deriving DecidableEq, Repr

/-- Source type `Networks`. -/
structure Networks where
  Networks : List IPNet
deriving DecidableEq, Repr

/-- Source type `runBook`. -/
structure runBook where
  Scripts : List script
  AllowedNetworks : Networks
deriving DecidableEq, Repr

/-- The zero value of `result` (Go `result{}`). -/
def result.zero : result := { Stdout := "", Stderr := "", StatusCode := 0 }

/-- The zero value of `net.IPNet` (Go `net.IPNet{}`): nil address and nil mask. -/
def IPNet.zero : IPNet := { IP := [], Mask := [] }

/-- The value `new(runBook)` points to: no scripts, no networks. -/
def runBook.zero : runBook := { Scripts := [], AllowedNetworks := { Networks := [] } }

/-! ## Package `net` (Go standard library): the functions `runbook.go` calls -/

/-- Go `net.IPv4len`. -/
def IPv4len : Nat := 4

/-- Go `net.IPv6len`. -/
def IPv6len : Nat := 16

/-- Go `net.isZeros`. -/
def isZeros (p : List Nat) : Bool := p.all (fun b => b == 0)

/-- Go `net.IP.To4`: the 4-byte form of an IPv4 address, `none` for nil. -/
def IP.To4 (ip : IP) : Option IP :=
  if ip.length == IPv4len then some ip
  else if ip.length == IPv6len && isZeros (ip.take 10) && ip.getD 10 0 == 0xff
      && ip.getD 11 0 == 0xff then
    some ((ip.drop 12).take 4)
  else none

/-- Go `net.networkNumberAndMask`; the result `nil, nil` is `([], [])`. -/
def networkNumberAndMask (n : IPNet) : IP × IPMask :=
  let ip? : Option IP :=
    match IP.To4 n.IP with
    | some x => some x
    | none => if n.IP.length != IPv6len then none else some n.IP
  match ip? with
  | none => ([], [])
  | some ip =>
    let m := n.Mask
    if m.length == IPv4len then
      if ip.length != IPv4len then ([], []) else (ip, m)
    else if m.length == IPv6len then
      if ip.length == IPv4len then (ip, m.drop 12) else (ip, m)
    else ([], [])

/-- The comparison loop of `net.IPNet.Contains`: `nn[i]&m[i] == ip[i]&m[i]` for every
index `i` of `ip`. -/
def maskedEqual : IP → IPMask → IP → Bool
  | [], _, _ => true
  | _ :: _, [], _ => true
  | _ :: _, _ :: _, [] => true
  | a :: nn, b :: m, c :: ip =>
    if a &&& b != c &&& b then false else maskedEqual nn m ip

/-- Go `net.IPNet.Contains`. -/
def IPNet.Contains (n : IPNet) (ip : Captainhook.IP) : Bool :=
  let (nn, m) := networkNumberAndMask n
  let ip := match IP.To4 ip with
    | some x => x
    | none => ip
  if ip.length != nn.length then false
  else maskedEqual nn m ip

/-! ## `runBook.AddrIsAllowed` -/

/-- The `for _, nw := range r.AllowedNetworks.Networks` loop of `AddrIsAllowed`. -/
def addrLoop (remoteIP : IP) : List IPNet → Bool
  | [] => false
  | nw :: rest => if nw.Contains remoteIP then true else addrLoop remoteIP rest

/-- Source function `(r *runBook) AddrIsAllowed(remoteIP net.IP) bool`. -/
def runBook.AddrIsAllowed (r : runBook) (remoteIP : IP) : Bool :=
  if r.AllowedNetworks.Networks.length == 0 then true
  else addrLoop remoteIP r.AllowedNetworks.Networks

/-! ## `net.ParseCIDR`, IPv4 branch

`Networks.UnmarshalJSON` is embedded over an arbitrary `ParseCIDR`.  The functions
below transcribe the IPv4 branch of the standard library (`net.ParseCIDR`,
`netip.ParseAddr`, `netip.parseIPv4Fields`, `net.dtoi`, `net.CIDRMask`, `net.IP.Mask`)
and serve to evaluate the embedding on concrete IPv4 input.  Strings are handled as
lists of characters. -/

/-- Go `net.dtoi`, the digit loop: returns `(n, i, ok)`. -/
def dtoiLoop : List Char → Nat → Nat → Nat × Nat × Bool
  | [], n, i => (n, i, true)
  | c :: rest, n, i =>
    if '0' ≤ c ∧ c ≤ '9' then
      let n1 := n * 10 + (c.toNat - '0'.toNat)
      if n1 ≥ 0xFFFFFF then (0xFFFFFF, i, false) else dtoiLoop rest n1 (i + 1)
    else (n, i, true)

/-- Go `net.dtoi`: decimal to integer, with the number of characters consumed. -/
def dtoi (s : List Char) : Nat × Nat × Bool :=
  match dtoiLoop s 0 0 with
  | (n, i, ok) => if !ok then (n, i, false) else if i == 0 then (0, 0, false) else (n, i, true)

/-- Go `netip.parseIPv4Fields`, the character loop.  `prev` is `s[i-1]` (`none` when
`i == 0`), `fields` holds `fields[0..pos)`. -/
def parseIPv4FieldsLoop : List Char → Option Char → Nat → Nat → List Nat → Option (List Nat)
  | [], _, val, _, fields => if fields.length < 3 then none else some (fields ++ [val])
  | c :: rest, prev, val, digLen, fields =>
    if '0' ≤ c ∧ c ≤ '9' then
      if digLen == 1 && val == 0 then none
      else
        let val1 := val * 10 + (c.toNat - '0'.toNat)
        if val1 > 255 then none
        else parseIPv4FieldsLoop rest (some c) val1 (digLen + 1) fields
    else if c == '.' then
      if prev.isNone || rest.isEmpty || prev == some '.' then none
      else if fields.length == 3 then none
      else parseIPv4FieldsLoop rest (some c) 0 0 (fields ++ [val])
    else none

/-- Go `netip.parseIPv4`: the four bytes of a dotted-decimal address. -/
def parseIPv4 (s : List Char) : Option (List Nat) :=
  parseIPv4FieldsLoop s none 0 0 []

/-- Go `net.CIDRMask`, the byte loop: `l` bytes remain, `n` one-bits remain. -/
def cidrMaskLoop : Nat → Nat → List Nat
  | 0, _ => []
  | l + 1, n =>
    if n ≥ 8 then 0xff :: cidrMaskLoop l (n - 8)
    else (0xff - (0xff >>> n)) :: cidrMaskLoop l 0

/-- Go `net.CIDRMask(ones, bits)` for `bits` 32 or 128 and `ones ≤ bits`. -/
def CIDRMask (ones bits : Nat) : IPMask := cidrMaskLoop (bits / 8) ones

/-- Go `net.IP.Mask` on an address and a mask of equal length. -/
def maskBytes : IP → IPMask → IP
  | a :: ip, b :: m => (a &&& b) :: maskBytes ip m
  | _, _ => []

/-- Go `net.ParseCIDR`, IPv4 branch: `"a.b.c.d/n"` gives the network `a.b.c.d & mask`
with the mask of `n` leading ones.  An address part in which `':'` or `'%'` comes
before any `'.'` leaves this branch and is not accepted here. -/
def ParseCIDRv4 (s : String) : Except error IPNet :=
  let cs := s.toList
  let err : Except error IPNet := .error ("invalid CIDR address: " ++ s)
  match cs.indexOf? '/' with
  | none => err
  | some i =>
    let addr := cs.take i
    let mask := cs.drop (i + 1)
    match addr.find? (fun c => c == '.' || c == ':' || c == '%') with
    | some '.' =>
      match parseIPv4 addr with
      | none => err
      | some ip =>
        match dtoi mask with
        | (n, j, ok) =>
          if !ok || j != mask.length || n > 32 then err
          else
            let m := CIDRMask n 32
            .ok { IP := maskBytes ip m, Mask := m }
    | _ => err

/-! ## `Networks.UnmarshalJSON` -/

/-- The `for i, nw := range ns` loop of `UnmarshalJSON`: `acc` is `nets.Networks`,
already allocated; entry `i` is overwritten by each successful parse, and the first
parse error returns at once. -/
def unmarshalLoop (ParseCIDR : String → Except error IPNet) :
    List String → Nat → List IPNet → List IPNet × Option error
  | [], _, acc => (acc, none)
  | nw :: rest, i, acc =>
    match ParseCIDR nw with
    | .error err => (acc, some err)
    | .ok ipnet => unmarshalLoop ParseCIDR rest (i + 1) (acc.set i ipnet)

/-- Source function `(nets *Networks) UnmarshalJSON(data []byte) error`.
`decode data` is `json.Unmarshal(data, &ns)` for `ns []string`; the receiver after
the call is returned next to the error. -/
def Networks.UnmarshalJSON (decode : String → Except error (List String))
    (ParseCIDR : String → Except error IPNet) (nets : Captainhook.Networks)
    (data : String) : Captainhook.Networks × Option error :=
  match decode data with
  | .error err => (nets, some err)
  | .ok ns =>
    match unmarshalLoop ParseCIDR ns 0 (List.replicate ns.length IPNet.zero) with
    | (l, e) => ({ Networks := l }, e)

/-! ## The environment: `os/exec`, `syscall`, `io/ioutil`, `encoding/json`, `log` -/

/-- What the `os/exec` calls made by one run of `execScript` return.  Each constructor is
one path through the calls `StdoutPipe`, `StderrPipe`, `Start`, `Wait`:
the first call that fails, or the return of `Wait` with the wait status found in
`cmd.ProcessState.Sys().(syscall.WaitStatus)` afterwards. -/
inductive CmdRun where
  | stdoutPipeFailed (err : error)
  | stderrPipeFailed (err : error)
  | startFailed (err : error)
  | waited (err : Option error) (status : Nat)
deriving DecidableEq, Repr

/-- Go `syscall.WaitStatus.Exited` (Linux): `w&mask == exited`. -/
def WaitStatus.Exited (w : Nat) : Bool := w &&& 0x7F == 0

/-- Go `syscall.WaitStatus.ExitStatus` (Linux): `-1` unless exited, else `(w>>8)&0xFF`. -/
def WaitStatus.ExitStatus (w : Nat) : Int :=
  if !WaitStatus.Exited w then -1 else (((w >>> 8) &&& 0xFF : Nat) : Int)

/-- Go `os/exec`: the error `Cmd.Wait` returns for a process that exited with wait
status `w`.  A process that did not succeed (`ExitStatus() != 0`) gives an `*ExitError`,
whose message is `"exit status N"`; otherwise the error, if any, of copying the output
is returned. -/
def cmdWaitErr (w : Nat) (copyErr : Option error) : Option error :=
  if WaitStatus.ExitStatus w != 0 then
    some ("exit status " ++ toString (WaitStatus.ExitStatus w))
  else copyErr

/-- The `os/exec` returns for a command that is launched and terminates by itself with
exit code `c` (`0 ≤ c ≤ 255`), its output being copied without error: the wait status
is `c << 8`. -/
def CmdRun.exited (c : Nat) : CmdRun :=
  .waited (cmdWaitErr (c <<< 8) none) (c <<< 8)

/-- The world a runbook is loaded and run in: the state `os` of the operating system
(files, processes) and the lines written so far through package `log`. -/
structure World (σ : Type) where
  os : σ
  log : List String

/-- The environment of `runbook.go`.
* `configdir` is the package-level variable of that name, declared outside `runbook.go`.
* `ReadFile` is `ioutil.ReadFile`, reading the operating-system state.
* `Unmarshal data r` is `json.Unmarshal(data, r)` for `r *runBook`: the runbook `r`
  points to afterwards, and the error.  For the key `allowedNetworks` the library calls
  `Networks.UnmarshalJSON` and returns its error.
* `spawn s` creates, starts and waits for the process of script `s`: the returns of
  the `os/exec` calls and the operating-system state afterwards.  A process that never
  exits keeps `Wait`, hence `execute`, from returning; `spawn` describes the runs in
  which every call returns. -/
structure Env (σ : Type) where
  configdir : String
  ReadFile : String → σ → Except error String
  Unmarshal : String → runBook → runBook × Option error
  spawn : script → σ → CmdRun × σ

/-- Go `log.Printf` / `log.Println`: one more line on the log. -/
def World.logLine {σ : Type} (w : World σ) (line : String) : World σ :=
  { w with log := w.log ++ [line] }

/-! ## `execScript` and `runBook.execute` -/

/-- Source function `execScript(s script) (result, error)`, given the returns `c` of
its `os/exec` calls.  The second component is the line it logs, if any.  The two
goroutines that copy the process output to the log line by line run concurrently with
`Wait` and are left out; they do not touch the result. -/
def execScriptOn (s : script) (c : CmdRun) : (result × Option error) × Option String :=
  match c with
  | .stdoutPipeFailed err => ((result.zero, some ("failed to get stdout pipe: " ++ err)), none)
  | .stderrPipeFailed err => ((result.zero, some ("failed to get stderr pipe: " ++ err)), none)
  | .startFailed err => ((result.zero, some ("failed to start script: " ++ err)), none)
  | .waited err status =>
    let r : result := { Stdout := "", Stderr := "", StatusCode := -1 }
    match err with
    | none => (({ r with StatusCode := WaitStatus.ExitStatus status }, none), none)
    | some e => ((r, some e), some ("Error executing script " ++ s.Command ++ ": " ++ e))

/-- Source function `execScript` in a world: the process of `s` is spawned there. -/
def execScript {σ : Type} (env : Env σ) (s : script) (w : World σ) :
    (result × Option error) × World σ :=
  match env.spawn s w.os with
  | (c, os1) =>
    match execScriptOn s c with
    | (out, line) =>
      let w1 : World σ := { w with os := os1 }
      (out, match line with
        | none => w1
        | some l => w1.logLine l)

/-- The body of the `for _, x := range r.Scripts` loop of `execute`: run the script,
log its error if it has one, and hand back the result to append. -/
def executeBody {σ : Type} (env : Env σ) (x : script) (w : World σ) : result × World σ :=
  match execScript env x w with
  | ((r, err), w1) =>
    (r, match err with
      | none => w1
      | some e => w1.logLine ("ERROR :" ++ e))

/-- The `for _, x := range r.Scripts` loop of `execute`; `results` is the slice built
so far. -/
def executeLoop {σ : Type} (env : Env σ) :
    List script → List result → World σ → List result × World σ
  | [], results, w => (results, w)
  | x :: rest, results, w =>
    match executeBody env x w with
    | (r, w1) => executeLoop env rest (results ++ [r]) w1

/-- Source function `(r *runBook) execute() (*runBookResponse, error)`. -/
def runBook.execute {σ : Type} (env : Env σ) (r : runBook) (w : World σ) :
    (Option runBookResponse × Option error) × World σ :=
  match executeLoop env r.Scripts [] w with
  | (results, w1) => ((some { Results := results }, none), w1)

/-- The world in which `execute` runs the script of index `i`: the one reached from `w`
by the loop bodies of the scripts before it. -/
def worldBefore {σ : Type} (env : Env σ) : List script → World σ → Nat → World σ
  | [], w, _ => w
  | _ :: _, w, 0 => w
  | x :: rest, w, i + 1 => worldBefore env rest (executeBody env x w).2 i

/-! ## `getRunBookById` and `NewRunBook` -/

/-- The local `runBookPath` of `getRunBookById`:
`fmt.Sprintf("%s/%s.json", configdir, id)`. -/
def runBookPath {σ : Type} (env : Env σ) (id : String) : String :=
  env.configdir ++ "/" ++ id ++ ".json"

/-- Source function `getRunBookById(id string) (*runBook, error)`. -/
def getRunBookById {σ : Type} (env : Env σ) (id : String) (w : World σ) :
    (Option runBook × Option error) × World σ :=
  let r := runBook.zero
  match env.ReadFile (runBookPath env id) w.os with
  | .error err =>
    ((some r, some ("cannot read run book " ++ runBookPath env id ++ ": " ++ err)), w)
  | .ok data =>
    match env.Unmarshal data r with
    | (r1, some err) => ((some r1, some err), w)
    | (r1, none) => ((some r1, none), w)

/-- Source function `NewRunBook(id string) (*runBook, error)`. -/
def NewRunBook {σ : Type} (env : Env σ) (id : String) (w : World σ) :
    (Option runBook × Option error) × World σ :=
  getRunBookById env id w

/-- The allow-list obtained by `Networks.UnmarshalJSON` from the JSON array
`["10.0.0.0/24"]`, starting from the zero `Networks`. -/
def nets10 : Networks :=
  (Networks.UnmarshalJSON (fun _ => .ok ["10.0.0.0/24"]) ParseCIDRv4 ⟨[]⟩
    "[\"10.0.0.0/24\"]").1

/-! ## A concrete environment -/

/-- An environment to evaluate the embedding in.  The operating-system state counts the
processes spawned so far.  The command `/nonexistent` fails to start, `false` exits
with code 1, `sh -c "exit 3"` exits with code 3, and every other command exits with
code 0.  The only file is
`/etc/captainhook/deploy.json`; `Unmarshal` stands for a decoder that rejects the
text `not json` and otherwise yields one script `true`. -/
def demoEnv : Env Nat where
  configdir := "/etc/captainhook"
  ReadFile := fun path _ =>
    if path == "/etc/captainhook/deploy.json" then
      .ok "\x7b\"scripts\": [\x7b\"command\": \"true\"\x7d]\x7d"
    else .error ("open " ++ path ++ ": no such file or directory")
  Unmarshal := fun data r =>
    if data == "not json" then (r, some "invalid character") else
      ({ r with Scripts := [⟨"true", []⟩] }, none)
  spawn := fun s n =>
    (if s.Command == "/nonexistent" then
        .startFailed "fork/exec /nonexistent: no such file or directory"
      else if s.Command == "false" then CmdRun.exited 1
      else if s == ⟨"sh", ["-c", "exit 3"]⟩ then CmdRun.exited 3
      else CmdRun.exited 0, n + 1)

/-- A runbook of three scripts, the second of which fails to start. -/
def demoBook : runBook :=
  { Scripts := [⟨"true", []⟩, ⟨"/nonexistent", []⟩, ⟨"sh", ["-c", "exit 3"]⟩],
    AllowedNetworks := nets10 }

/-! ## Evaluation on concrete inputs -/

example : ((demoBook.execute demoEnv ⟨0, []⟩).1.1.map (fun resp => resp.Results))
    = some [⟨"", "", 0⟩, ⟨"", "", 0⟩, ⟨"", "", -1⟩] := by
  rfl
example : (demoBook.execute demoEnv ⟨0, []⟩).2.os = 3 := by rfl
example : (demoBook.execute demoEnv ⟨0, []⟩).2.log =
    ["ERROR :failed to start script: fork/exec /nonexistent: no such file or directory",
     "Error executing script sh: exit status 3", "ERROR :exit status 3"] := by
  rfl
example : (NewRunBook demoEnv "missing" ⟨0, []⟩).1.2 = some
    ("cannot read run book /etc/captainhook/missing.json: " ++
      "open /etc/captainhook/missing.json: no such file or directory") := by
  rfl
example : (NewRunBook demoEnv "deploy" ⟨0, []⟩).1.2 = none := by rfl

example : ParseCIDRv4 "10.0.0.0/24" = .ok ⟨[10, 0, 0, 0], [255, 255, 255, 0]⟩ := by rfl
example : ParseCIDRv4 "10.0.0.77/25" = .ok ⟨[10, 0, 0, 0], [255, 255, 255, 128]⟩ := by rfl
example : ParseCIDRv4 "not-a-cidr" = .error "invalid CIDR address: not-a-cidr" := by rfl
example : ParseCIDRv4 "10.0.0.0/33" = .error "invalid CIDR address: 10.0.0.0/33" := by rfl
example : ParseCIDRv4 "10.0.0.01/8" = .error "invalid CIDR address: 10.0.0.01/8" := by rfl
example : (IPNet.mk [10, 0, 0, 0] [255, 255, 255, 0]).Contains [10, 0, 0, 5] = true := by decide
example : (IPNet.mk [10, 0, 0, 0] [255, 255, 255, 0]).Contains [10, 0, 1, 5] = false := by decide
example : IPNet.zero.Contains [] = true := by decide
example : execScriptOn ⟨"sh", ["-c", "exit 3"]⟩ (CmdRun.exited 3) =
    ((⟨"", "", -1⟩, some "exit status 3"), some "Error executing script sh: exit status 3") := by
  decide
example : execScriptOn ⟨"true", []⟩ (CmdRun.exited 0) = ((⟨"", "", 0⟩, none), none) := by decide
example : (execScriptOn ⟨"/nonexistent", []⟩ (.startFailed "no such file")).1.1.StatusCode = 0 := by
  decide

/-! ## `AddrIsAllowed` -/

/-- The loop of `AddrIsAllowed` answers whether some network of the list contains the
address. -/
theorem addrLoop_eq_true_iff (ip : IP) (l : List IPNet) :
    addrLoop ip l = true ↔ ∃ nw ∈ l, nw.Contains ip = true := by
  induction l with
  | nil => simp [addrLoop]
  | cons nw rest ih =>
    unfold addrLoop
    by_cases h : nw.Contains ip = true
    · simp [h]
    · simp [h, ih]

/-- C4: for a runbook with a non-empty allow-list, `AddrIsAllowed` is true exactly when
some configured network contains the address; with the allow-list `["10.0.0.0/24"]`
the address 10.0.0.5 is allowed and 10.0.1.5 is not, in the 4-byte form and in the
16-byte form `net.ParseIP` produces. -/
theorem addrIsAllowed_iff_contains (r : runBook) (ip : IP)
    (h : r.AllowedNetworks.Networks ≠ []) :
    (r.AddrIsAllowed ip = true ↔ ∃ nw ∈ r.AllowedNetworks.Networks, nw.Contains ip = true)
    ∧ runBook.AddrIsAllowed ⟨r.Scripts, nets10⟩ [10, 0, 0, 5] = true
    ∧ runBook.AddrIsAllowed ⟨r.Scripts, nets10⟩ [10, 0, 1, 5] = false
    ∧ runBook.AddrIsAllowed ⟨r.Scripts, nets10⟩
        [0, 0, 0, 0, 0, 0, 0, 0, 0, 0, 255, 255, 10, 0, 0, 5] = true
    ∧ runBook.AddrIsAllowed ⟨r.Scripts, nets10⟩
        [0, 0, 0, 0, 0, 0, 0, 0, 0, 0, 255, 255, 10, 0, 1, 5] = false := by
  refine ⟨?_, by rfl, by rfl, by rfl, by rfl⟩
  unfold runBook.AddrIsAllowed
  have hlen : (r.AllowedNetworks.Networks.length == 0) = false := by
    cases hl : r.AllowedNetworks.Networks with
    | nil => exact absurd hl h
    | cons a t => rfl
  rw [hlen]
  simpa using addrLoop_eq_true_iff ip r.AllowedNetworks.Networks

/-- Witness of C4 at the runbook whose allow-list is `10.0.0.0/24` and the address
10.0.0.5. -/
theorem addrIsAllowed_iff_contains_witness :
    (runBook.mk [] nets10).AllowedNetworks.Networks ≠ []
    ∧ ((runBook.mk [] nets10).AddrIsAllowed [10, 0, 0, 5] = true ↔
        ∃ nw ∈ (runBook.mk [] nets10).AllowedNetworks.Networks,
          nw.Contains [10, 0, 0, 5] = true) :=
  ⟨by decide, (addrIsAllowed_iff_contains (runBook.mk [] nets10) [10, 0, 0, 5] (by decide)).1⟩

/-- C5: a runbook whose allow-list is empty allows every address. -/
theorem addrIsAllowed_of_empty (r : runBook) (ip : IP)
    (h : r.AllowedNetworks.Networks = []) : r.AddrIsAllowed ip = true := by
  simp [runBook.AddrIsAllowed, h]

/-- Witness of C5 at the zero runbook (no `allowedNetworks` key) and 203.0.113.9; an
empty JSON array gives the same empty list through `UnmarshalJSON`. -/
theorem addrIsAllowed_of_empty_witness :
    runBook.zero.AllowedNetworks.Networks = []
    ∧ runBook.zero.AddrIsAllowed [203, 0, 113, 9] = true
    ∧ (Networks.UnmarshalJSON (fun _ => .ok []) ParseCIDRv4 ⟨[]⟩ "[]").1.Networks = [] :=
  ⟨rfl, addrIsAllowed_of_empty runBook.zero [203, 0, 113, 9] rfl, rfl⟩

/-- C10: two runbooks whose allow-lists have the same members, in whatever order and
multiplicity, give the same answer on every address. -/
theorem addrIsAllowed_congr_of_mem_iff (r1 r2 : runBook) (ip : IP)
    (h : ∀ nw, nw ∈ r1.AllowedNetworks.Networks ↔ nw ∈ r2.AllowedNetworks.Networks) :
    r1.AddrIsAllowed ip = r2.AddrIsAllowed ip := by
  unfold runBook.AddrIsAllowed
  have hloop : addrLoop ip r1.AllowedNetworks.Networks
      = addrLoop ip r2.AllowedNetworks.Networks := by
    rw [Bool.eq_iff_iff, addrLoop_eq_true_iff, addrLoop_eq_true_iff]
    constructor
    · rintro ⟨nw, hm, hc⟩
      exact ⟨nw, (h nw).1 hm, hc⟩
    · rintro ⟨nw, hm, hc⟩
      exact ⟨nw, (h nw).2 hm, hc⟩
  cases h1 : r1.AllowedNetworks.Networks with
  | nil =>
    cases h2 : r2.AllowedNetworks.Networks with
    | nil => rfl
    | cons b t =>
      have : b ∈ r1.AllowedNetworks.Networks := (h b).2 (by simp [h2])
      simp [h1] at this
  | cons a t =>
    cases h2 : r2.AllowedNetworks.Networks with
    | nil =>
      have : a ∈ r2.AllowedNetworks.Networks := (h a).1 (by simp [h1])
      simp [h2] at this
    | cons b t2 =>
      rw [h1, h2] at hloop
      simpa using hloop

/-- Witness of C10: the lists `[a, b]` and `[b, a, a]`. -/
theorem addrIsAllowed_congr_of_mem_iff_witness :
    (∀ nw, nw ∈ (runBook.mk [] ⟨[⟨[10, 0, 0, 0], [255, 255, 255, 0]⟩,
          ⟨[192, 168, 0, 0], [255, 255, 0, 0]⟩]⟩).AllowedNetworks.Networks ↔
        nw ∈ (runBook.mk [] ⟨[⟨[192, 168, 0, 0], [255, 255, 0, 0]⟩,
          ⟨[10, 0, 0, 0], [255, 255, 255, 0]⟩,
          ⟨[10, 0, 0, 0], [255, 255, 255, 0]⟩]⟩).AllowedNetworks.Networks)
    ∧ (runBook.mk [] ⟨[⟨[10, 0, 0, 0], [255, 255, 255, 0]⟩,
          ⟨[192, 168, 0, 0], [255, 255, 0, 0]⟩]⟩).AddrIsAllowed [192, 168, 7, 7]
      = (runBook.mk [] ⟨[⟨[192, 168, 0, 0], [255, 255, 0, 0]⟩,
          ⟨[10, 0, 0, 0], [255, 255, 255, 0]⟩,
          ⟨[10, 0, 0, 0], [255, 255, 255, 0]⟩]⟩).AddrIsAllowed [192, 168, 7, 7] :=
  ⟨by intro nw; simp; tauto,
   addrIsAllowed_congr_of_mem_iff _ _ _ (by intro nw; simp; tauto)⟩

/-! ## `execute` -/

/-- The loop of `execute` appends one result per script to the slice it starts from. -/
theorem executeLoop_length {σ : Type} (env : Env σ) (xs : List script) (acc : List result)
    (w : World σ) : (executeLoop env xs acc w).1.length = acc.length + xs.length := by
  induction xs generalizing acc w with
  | nil => simp [executeLoop]
  | cons x rest ih =>
    simp only [executeLoop]
    rw [ih]
    simp
    omega

/-- The loop of `execute` keeps the results it starts from and appends, for each
script in order, the result `execScript` returns in the world the loop has reached. -/
theorem executeLoop_index {σ : Type} (env : Env σ) (xs : List script) (acc : List result)
    (w : World σ) (i : Nat) :
    (executeLoop env xs acc w).1[i]? =
      if i < acc.length then acc[i]?
      else (xs[i - acc.length]?).map
        (fun s => (execScript env s (worldBefore env xs w (i - acc.length))).1.1) := by
  induction xs generalizing acc w i with
  | nil =>
    simp only [executeLoop]
    split
    · rfl
    · rename_i h
      simp [List.getElem?_eq_none (Nat.le_of_not_lt h)]
  | cons x rest ih =>
    simp only [executeLoop]
    rw [ih]
    by_cases h1 : i < acc.length
    · have h2 : i < (acc ++ [(executeBody env x w).1]).length := by simp; omega
      rw [if_pos h2, if_pos h1, List.getElem?_append_left h1]
    · by_cases h3 : i = acc.length
      · subst h3
        have h2 : acc.length < (acc ++ [(executeBody env x w).1]).length := by simp
        rw [if_pos h2, if_neg h1]
        simp [worldBefore, executeBody]
      · have h2 : ¬ i < (acc ++ [(executeBody env x w).1]).length := by simp; omega
        rw [if_neg h2, if_neg h1]
        have h4 : i - acc.length = (i - (acc ++ [(executeBody env x w).1]).length) + 1 := by
          simp; omega
        rw [h4]
        simp [worldBefore]

/-- C1: the response of `execute` has exactly as many results as the runbook has
scripts, whatever the environment makes of each script. -/
theorem execute_results_length {σ : Type} (env : Env σ) (r : runBook) (w : World σ) :
    ∃ resp, (r.execute env w).1.1 = some resp ∧ resp.Results.length = r.Scripts.length := by
  refine ⟨⟨(executeLoop env r.Scripts [] w).1⟩, rfl, ?_⟩
  simp [executeLoop_length]

/-- C6: for every index `i`, entry `i` of the response of `execute` is the result
`execScript` returns for script `i`, run in the world left by the scripts before it;
this holds whatever errors the other scripts return. -/
theorem execute_results_index {σ : Type} (env : Env σ) (r : runBook) (w : World σ)
    (i : Nat) :
    ∃ resp, (r.execute env w).1.1 = some resp ∧
      resp.Results[i]? =
        (r.Scripts[i]?).map (fun s => (execScript env s (worldBefore env r.Scripts w i)).1.1) := by
  refine ⟨⟨(executeLoop env r.Scripts [] w).1⟩, rfl, ?_⟩
  simpa using executeLoop_index env r.Scripts [] w i

/-- C9: `execute` returns a non-nil response and a nil error for every runbook, in every
environment, hence whatever error each script returns; the response holds one result
per script. -/
theorem execute_error_nil {σ : Type} (env : Env σ) (r : runBook) (w : World σ) :
    (r.execute env w).1.2 = none ∧ (r.execute env w).1.1.isSome = true ∧
      (r.execute env w).1.1.map (fun resp => resp.Results.length) = some r.Scripts.length := by
  refine ⟨rfl, rfl, ?_⟩
  simp [runBook.execute, executeLoop_length]

/-! ## `execScript` -/

/-- C2 (the code on its failing inputs): when attaching the stdout pipe, attaching the
stderr pipe or starting the process fails, `execScript` returns a non-nil error
together with the zero `result`, whose `StatusCode` is `0`, not `-1`; the `-1` that
`execScript` prepares is reached on the `Wait` path alone. -/
theorem execScript_launch_failure_status (s : script) (e : error) :
    ((execScriptOn s (.stdoutPipeFailed e)).1.1.StatusCode = 0
      ∧ (execScriptOn s (.stdoutPipeFailed e)).1.2 = some ("failed to get stdout pipe: " ++ e))
    ∧ ((execScriptOn s (.stderrPipeFailed e)).1.1.StatusCode = 0
      ∧ (execScriptOn s (.stderrPipeFailed e)).1.2 = some ("failed to get stderr pipe: " ++ e))
    ∧ ((execScriptOn s (.startFailed e)).1.1.StatusCode = 0
      ∧ (execScriptOn s (.startFailed e)).1.2 = some ("failed to start script: " ++ e))
    ∧ (execScriptOn s (.waited (some e) 0)).1.1.StatusCode = -1 :=
  ⟨⟨rfl, rfl⟩, ⟨rfl, rfl⟩, ⟨rfl, rfl⟩, rfl⟩

/-- The wait status `c << 8` of a process that exited with code `c ≤ 255` has exit
status `c`. -/
theorem exitStatus_shiftLeft (c : Nat) (hc : c < 256) :
    WaitStatus.ExitStatus (c <<< 8) = (c : Int) := by
  have h1 : (c <<< 8) &&& 0x7F = 0 := by
    have : (0x7F : Nat) = 2 ^ 7 - 1 := by norm_num
    rw [this, Nat.and_pow_two_sub_one_eq_mod, Nat.shiftLeft_eq]
    omega
  have h2 : ((c <<< 8) >>> 8) &&& 0xFF = c := by
    have : (0xFF : Nat) = 2 ^ 8 - 1 := by norm_num
    rw [this, Nat.and_pow_two_sub_one_eq_mod, Nat.shiftLeft_eq, Nat.shiftRight_eq_div_pow]
    omega
  have h3 : c &&& 0xFF = c := by
    have : (0xFF : Nat) = 2 ^ 8 - 1 := by norm_num
    rw [this, Nat.and_pow_two_sub_one_eq_mod]
    omega
  simp [WaitStatus.ExitStatus, WaitStatus.Exited, h1, h2, h3]

/-- C3 (the code on its failing inputs): for a process that is launched and exits with
a non-zero code `c`, `Wait` returns an `*ExitError`, the branch that reads the exit
status is skipped, and `execScript` returns `StatusCode = -1` instead of `c`. -/
theorem execScript_nonzero_exit_status (s : script) (c : Nat) (h0 : 0 < c) (hc : c < 256) :
    (execScriptOn s (CmdRun.exited c)).1.1.StatusCode = -1
    ∧ (execScriptOn s (CmdRun.exited c)).1.2 = some ("exit status " ++ toString (c : Int)) := by
  have hne : (WaitStatus.ExitStatus (c <<< 8) != 0) = true := by
    rw [exitStatus_shiftLeft c hc]
    simp
    omega
  have hz : c ≠ 0 := by omega
  simp [execScriptOn, CmdRun.exited, cmdWaitErr, hne, exitStatus_shiftLeft c hc, hz]

/-- Witness of C3: `sh -c "exit 3"` is reported with status `-1`. -/
theorem execScript_nonzero_exit_status_witness :
    0 < 3 ∧ 3 < 256 ∧
    (execScriptOn ⟨"sh", ["-c", "exit 3"]⟩ (CmdRun.exited 3)).1.1.StatusCode = -1 :=
  ⟨by decide, by decide,
    (execScript_nonzero_exit_status ⟨"sh", ["-c", "exit 3"]⟩ 3 (by decide) (by decide)).1⟩

/-! ## `Networks.UnmarshalJSON` -/

/-- A list with an entry that fails to parse splits at its first such entry. -/
theorem exists_first_parse_error (parse : String → Except error IPNet) (ns : List String)
    (h : ∃ s ∈ ns, ∃ e, parse s = .error e) :
    ∃ pre bad post e, ns = pre ++ bad :: post ∧ (∀ s ∈ pre, ∃ n, parse s = .ok n) ∧
      parse bad = .error e := by
  induction ns with
  | nil => simp at h
  | cons a rest ih =>
    cases ha : parse a with
    | error e => exact ⟨[], a, rest, e, rfl, by simp, ha⟩
    | ok n =>
      have hrest : ∃ s ∈ rest, ∃ e, parse s = .error e := by
        obtain ⟨s, hs, e, he⟩ := h
        rcases List.mem_cons.1 hs with h1 | h1
        · subst h1
          rw [ha] at he
          cases he
        · exact ⟨s, h1, e, he⟩
      obtain ⟨pre, bad, post, e, hsplit, hpre, hbad⟩ := ih hrest
      refine ⟨a :: pre, bad, post, e, by simp [hsplit], ?_, hbad⟩
      intro s hs
      rcases List.mem_cons.1 hs with h1 | h1
      · subst h1
        exact ⟨n, ha⟩
      · exact hpre s h1

/-- Writing entry `done.length` of a slice that continues `done`. -/
theorem set_length_append (done : List IPNet) (z n : IPNet) (tail : List IPNet) :
    (done ++ z :: tail).set done.length n = done ++ n :: tail := by
  induction done with
  | nil => rfl
  | cons a t ih => simp [List.set, ih]

/-- The loop of `UnmarshalJSON` on a list whose first invalid entry is `bad`: it stops
there with the error of `bad`, having overwritten the entries before it. -/
theorem unmarshalLoop_first_error (parse : String → Except error IPNet)
    (pre : List String) (bad : String) (post : List String) (e : error)
    (hpre : ∀ s ∈ pre, ∃ n, parse s = .ok n) (hbad : parse bad = .error e)
    (done : List IPNet) :
    unmarshalLoop parse (pre ++ bad :: post) done.length
        (done ++ List.replicate (pre.length + (post.length + 1)) IPNet.zero)
      = (done ++ pre.filterMap (fun s => (parse s).toOption)
          ++ List.replicate (post.length + 1) IPNet.zero, some e) := by
  induction pre generalizing done with
  | nil => simp [unmarshalLoop, hbad]
  | cons a rest ih =>
    obtain ⟨n, hn⟩ := hpre a (by simp)
    have hrest : ∀ s ∈ rest, ∃ n, parse s = .ok n := fun s hs => hpre s (by simp [hs])
    have hrep : List.replicate ((a :: rest).length + (post.length + 1)) IPNet.zero
        = IPNet.zero :: List.replicate (rest.length + (post.length + 1)) IPNet.zero := by
      have : (a :: rest).length + (post.length + 1)
          = (rest.length + (post.length + 1)) + 1 := by simp; omega
      rw [this, List.replicate_succ]
    have hstep := ih hrest (done ++ [n])
    simp only [List.length_append, List.length_singleton, List.append_assoc,
      List.singleton_append] at hstep
    simp only [List.cons_append, unmarshalLoop, hn, hrep, set_length_append]
    refine hstep.trans ?_
    simp [List.filterMap_cons, hn, Except.toOption]

/-- C7 (as amended): when some entry of the decoded list is not valid CIDR notation,
`UnmarshalJSON` returns the parse error of the first such entry, and the receiver is
left with a range list of the length of the input: the ranges parsed from the entries
before that one, followed by zero ranges. -/
theorem unmarshalJSON_invalid_entry (decode : String → Except error (List String))
    (parse : String → Except error IPNet) (nets : Networks) (data : String)
    (ns : List String) (hd : decode data = .ok ns)
    (hbad : ∃ s ∈ ns, ∃ e, parse s = .error e) :
    ∃ pre bad post e, ns = pre ++ bad :: post ∧ (∀ s ∈ pre, ∃ n, parse s = .ok n) ∧
      parse bad = .error e ∧
      (Networks.UnmarshalJSON decode parse nets data).2 = some e ∧
      (Networks.UnmarshalJSON decode parse nets data).1.Networks
        = pre.filterMap (fun s => (parse s).toOption)
          ++ List.replicate (post.length + 1) IPNet.zero := by
  obtain ⟨pre, bad, post, e, hsplit, hpre, hb⟩ := exists_first_parse_error parse ns hbad
  refine ⟨pre, bad, post, e, hsplit, hpre, hb, ?_⟩
  have hloop := unmarshalLoop_first_error parse pre bad post e hpre hb []
  simp only [List.length_nil, List.nil_append] at hloop
  have hlen : ns.length = pre.length + (post.length + 1) := by simp [hsplit]
  simp [Networks.UnmarshalJSON, hd, hlen, hsplit, hloop]

/-- Witness of C7 (as amended): the list `["10.0.0.0/24", "not-a-cidr"]`. -/
theorem unmarshalJSON_invalid_entry_witness :
    (∃ s ∈ ["10.0.0.0/24", "not-a-cidr"], ∃ e, ParseCIDRv4 s = .error e) ∧
    ∃ pre bad post e, ["10.0.0.0/24", "not-a-cidr"] = pre ++ bad :: post ∧
      (∀ s ∈ pre, ∃ n, ParseCIDRv4 s = .ok n) ∧ ParseCIDRv4 bad = .error e ∧
      (Networks.UnmarshalJSON (fun _ => .ok ["10.0.0.0/24", "not-a-cidr"]) ParseCIDRv4
        ⟨[]⟩ "").2 = some e ∧
      (Networks.UnmarshalJSON (fun _ => .ok ["10.0.0.0/24", "not-a-cidr"]) ParseCIDRv4
        ⟨[]⟩ "").1.Networks
        = pre.filterMap (fun s => (ParseCIDRv4 s).toOption)
          ++ List.replicate (post.length + 1) IPNet.zero :=
  ⟨⟨"not-a-cidr", by simp, _, rfl⟩,
    unmarshalJSON_invalid_entry (fun _ => .ok ["10.0.0.0/24", "not-a-cidr"]) ParseCIDRv4
      ⟨[]⟩ "" ["10.0.0.0/24", "not-a-cidr"] rfl ⟨"not-a-cidr", by simp, _, rfl⟩⟩

/-- C7 (counterexample): on `["10.0.0.0/24", "not-a-cidr"]` and an empty receiver,
`UnmarshalJSON` returns an error, and the receiver is no longer empty: it holds the
range parsed from the valid first entry, followed by a zero range. -/
theorem unmarshalJSON_partial_list :
    ParseCIDRv4 "10.0.0.0/24" = .ok ⟨[10, 0, 0, 0], [255, 255, 255, 0]⟩
    ∧ ParseCIDRv4 "not-a-cidr" = .error "invalid CIDR address: not-a-cidr"
    ∧ (Networks.UnmarshalJSON (fun _ => .ok ["10.0.0.0/24", "not-a-cidr"]) ParseCIDRv4
        ⟨[]⟩ "[\"10.0.0.0/24\", \"not-a-cidr\"]").2
      = some "invalid CIDR address: not-a-cidr"
    ∧ (Networks.UnmarshalJSON (fun _ => .ok ["10.0.0.0/24", "not-a-cidr"]) ParseCIDRv4
        ⟨[]⟩ "[\"10.0.0.0/24\", \"not-a-cidr\"]").1
      = ⟨[⟨[10, 0, 0, 0], [255, 255, 255, 0]⟩, IPNet.zero]⟩
    ∧ (Networks.UnmarshalJSON (fun _ => .ok ["10.0.0.0/24", "not-a-cidr"]) ParseCIDRv4
        ⟨[]⟩ "[\"10.0.0.0/24\", \"not-a-cidr\"]").1
      ≠ ⟨[]⟩ := by
  refine ⟨rfl, rfl, rfl, rfl, ?_⟩
  have h : (Networks.UnmarshalJSON (fun _ => .ok ["10.0.0.0/24", "not-a-cidr"]) ParseCIDRv4
        ⟨[]⟩ "[\"10.0.0.0/24\", \"not-a-cidr\"]").1
      = ⟨[⟨[10, 0, 0, 0], [255, 255, 255, 0]⟩, IPNet.zero]⟩ := rfl
  rw [h]
  decide

/-! ## `NewRunBook` -/

/-- C8: loading returns a non-nil error exactly when the file `configdir/<id>.json`
cannot be read or `json.Unmarshal` of its bytes returns an error; the error of a failed
read is the message `cannot read run book <path>: <cause>`, that of a failed
deserialization is the one `json.Unmarshal` returned; loading leaves the world, hence
the processes, as they were. -/
theorem newRunBook_error {σ : Type} (env : Env σ) (id : String) (w : World σ) :
    NewRunBook env id w = getRunBookById env id w
    ∧ ((NewRunBook env id w).1.2 ≠ none ↔
        (∃ e, env.ReadFile (runBookPath env id) w.os = .error e)
        ∨ (∃ data, env.ReadFile (runBookPath env id) w.os = .ok data
            ∧ (env.Unmarshal data runBook.zero).2 ≠ none))
    ∧ (NewRunBook env id w).1.2 =
        (match env.ReadFile (runBookPath env id) w.os with
          | .error e => some ("cannot read run book " ++ runBookPath env id ++ ": " ++ e)
          | .ok data => (env.Unmarshal data runBook.zero).2)
    ∧ runBookPath env id = env.configdir ++ "/" ++ id ++ ".json"
    ∧ (NewRunBook env id w).2 = w := by
  refine ⟨rfl, ?_, ?_, rfl, ?_⟩
  · unfold NewRunBook getRunBookById
    cases hr : env.ReadFile (runBookPath env id) w.os with
    | error e => simp
    | ok data =>
      cases hu : env.Unmarshal data runBook.zero with
      | mk r1 err =>
        cases err <;> simp [hu]
  · unfold NewRunBook getRunBookById
    cases hr : env.ReadFile (runBookPath env id) w.os with
    | error e => simp
    | ok data =>
      cases hu : env.Unmarshal data runBook.zero with
      | mk r1 err =>
        cases err <;> simp [hu]
  · unfold NewRunBook getRunBookById
    cases hr : env.ReadFile (runBookPath env id) w.os with
    | error e => simp
    | ok data =>
      cases hu : env.Unmarshal data runBook.zero with
      | mk r1 err =>
        cases err <;> simp [hu]

end Captainhook
